import Mathlib

/-!
A shallow embedding of the DukiTinyOS kernel core (scheduler, tick handler,
CPU-usage measurement, timers, task control block) together with theorems
checking the specification's claims against it.

The embedding follows the C sources:
  * `src/12.02-DukiTinyOS/main.c`          (scheduler, tick handler, CPU usage)
  * `src/12.01-DukiTinyOS/Source/tTask.c`  (task init / suspend / info)
  * `src/11.03-DukiTinyOS/Source/tTimer.c` (timer module)
Machine integers are `Nat` with explicit `% 2^32` where wrap-around matters.
The intrusive list type `tList` and the bitmap type `tBitMap` (`tLib.c`,
not present in the sources) are modelled from the spec: a list of ids with
O(1) insert-first / insert-last / remove / remove-first / count, and a
32-slot bitmap with set / clear / first-set.
-/

/-- Number of priority levels (`TINYOS_PRIO_COUNT`). Modelled from the spec:
`tConfig.h` is not in the sources; the spec fixes a 32-slot priority bitmap,
so the typical configuration value 32 is used. -/
def TINYOS_PRIO_COUNT : Nat := 32

/-- Default time-slice length in ticks (`TINYOS_SLICE_MAX`). Modelled from the
spec: `tConfig.h` is not in the sources; any positive configuration value
works, 10 is used as a representative one. -/
def TINYOS_SLICE_MAX : Nat := 10

/-- Ticks per second (`TICKS_PER_SEC`). Modelled from the spec: derived
configuration constant, 100 used as a representative value. -/
def TICKS_PER_SEC : Nat := 100

/-- The modulus of 32-bit unsigned arithmetic. -/
def UINT32_MOD : Nat := 2 ^ 32

/-- Decrement of a `uint32_t` value, wrapping at zero (C `--x`). -/
def dec32 (n : Nat) : Nat := (n + (UINT32_MOD - 1)) % UINT32_MOD

/-- Kernel result codes (subset of `tError` used by the claims). -/
inductive TErr where
  | noError
  | timeOut
  | deleted
  | resourceFull
deriving DecidableEq

/-- Task control block (`tTask`). The `state` bitfield of the C struct is
modelled by the three Boolean fields `stateDelayed`, `stateSuspend`,
`stateWaitEvent`; READY is the state with no bits set. `id` stands for the
task's identity (the address of the C structure); `stack` is the saved
stack-top word index. -/
structure tTask where
  id : Nat
  prio : Nat := 0
  delayTicks : Nat := 0
  slice : Nat := 0
  suspendCount : Nat := 0
  stateDelayed : Bool := false
  stateSuspend : Bool := false
  stateWaitEvent : Bool := false
  waitEvent : Option Nat := none
  waitEventMsg : Option Nat := none
  waitEventResult : Option TErr := none
  stack : Nat := 0
  stackSize : Nat := 0
  clean : Option Nat := none
  cleanParam : Option Nat := none
  requestDeleteFlag : Nat := 0
deriving DecidableEq

/-- Bitmap initialization `tBitMapInit`: all bits cleared. Modelled from the
spec (`tLib.c` is not in the sources). -/
def tBitMapInit : Nat := 0

/-- Bitmap `tBitMapSet`: set bit `i`. Modelled from the spec. -/
def tBitMapSet (b i : Nat) : Nat := b ||| (1 <<< i)

/-- Bitmap `tBitMapClear`: clear bit `i` (C `b &= ~(1 << i)` on 32 bits).
Modelled from the spec. -/
def tBitMapClear (b i : Nat) : Nat := b &&& ((2 ^ 32 - 1) ^^^ (1 <<< i))

/-- Bitmap `tBitMapGetFirstSet`: index of the lowest set bit, `32` when no
bit of the 32-slot map is set. Modelled from the spec. -/
def tBitMapGetFirstSet (b : Nat) : Nat :=
  (((List.range 32).find? fun i => b.testBit i).getD 32)

/-- Process-wide scheduler state of `main.c`: the per-priority ready lists
`taskTable`, the priority bitmap `taskPrioBitMap`, the scheduler lock
counter, and the `curTask` / `nextTask` ids. Ready lists hold task ids,
head first. -/
structure Sched where
  taskTable : List (List Nat)
  prioBitMap : Nat
  schedLockCounter : Nat
  curTask : Nat
  nextTask : Nat
deriving DecidableEq

/-- `tTaskSchedRdy`: insert the task at the head of its priority's ready
list and set its priority bit. -/
def tTaskSchedRdy (task : tTask) (s : Sched) : Sched :=
  { s with
    taskTable := s.taskTable.set task.prio (task.id :: s.taskTable.getD task.prio [])
    prioBitMap := tBitMapSet s.prioBitMap task.prio }

/-- `tTaskSchedUnRdy`: remove the task from its priority's ready list and,
if the list becomes empty, clear the priority bit. -/
def tTaskSchedUnRdy (task : tTask) (s : Sched) : Sched :=
  let l := (s.taskTable.getD task.prio []).erase task.id
  { s with
    taskTable := s.taskTable.set task.prio l
    prioBitMap := if l.length = 0 then tBitMapClear s.prioBitMap task.prio else s.prioBitMap }

/-- `tTaskSchedRemove`: same body as `tTaskSchedUnRdy` in the source. -/
def tTaskSchedRemove (task : tTask) (s : Sched) : Sched :=
  let l := (s.taskTable.getD task.prio []).erase task.id
  { s with
    taskTable := s.taskTable.set task.prio l
    prioBitMap := if l.length = 0 then tBitMapClear s.prioBitMap task.prio else s.prioBitMap }

/-- `tTaskSchedDisable`: increment the scheduler lock counter (saturating at
255) and, as the source does, re-initialize the whole priority bitmap. -/
def tTaskSchedDisable (s : Sched) : Sched :=
  { s with
    schedLockCounter :=
      if s.schedLockCounter < 255 then s.schedLockCounter + 1 else s.schedLockCounter
    prioBitMap := tBitMapInit }

/-- `tTaskHighestReady`: head of the ready list of the lowest set priority
bit. `none` models the out-of-range access the C code would perform when the
bitmap is empty or the selected list is empty. -/
def tTaskHighestReady (s : Sched) : Option Nat :=
  (s.taskTable.getD (tBitMapGetFirstSet s.prioBitMap) []).head?

/-- `tTaskSched`: when the scheduler is not locked, pick the highest-ready
task and, when it differs from `curTask`, set `nextTask` to it and trigger
the context switch. The Boolean reports whether `tTaskSwitch` was
triggered. -/
def tTaskSched (s : Sched) : Sched × Bool :=
  if s.schedLockCounter > 0 then (s, false)
  else
    match tTaskHighestReady s with
    | none => (s, false)
    | some t => if t ≠ s.curTask then ({ s with nextTask := t }, true) else (s, false)

/-- `tTaskSchedEnable`: decrement the lock counter when positive and, on the
transition to zero, run `tTaskSched`. The Boolean reports whether a context
switch was triggered. -/
def tTaskSchedEnable (s : Sched) : Sched × Bool :=
  if s.schedLockCounter > 0 then
    let s1 := { s with schedLockCounter := s.schedLockCounter - 1 }
    if s1.schedLockCounter = 0 then tTaskSched s1 else (s1, false)
  else (s, false)

/-- The ready-bitmap invariant of the spec: for every priority `p`,
`taskTable[p]` is non-empty exactly when bit `p` of `taskPrioBitMap` is
set. -/
def schedInv (s : Sched) : Prop :=
  ∀ p < 32, (s.taskTable.getD p [] ≠ []) ↔ s.prioBitMap.testBit p

instance (s : Sched) : Decidable (schedInv s) := by
  unfold schedInv; infer_instance

/-- Wait queues of all events: association list from event id to the FIFO
list of waiting task ids. -/
abbrev EvQueues := List (Nat × List Nat)

/-- Remove a task id from the wait queue of event `e`. -/
def evqRemove (q : EvQueues) (e taskId : Nat) : EvQueues :=
  q.map fun kl => if kl.1 = e then (kl.1, kl.2.erase taskId) else kl

/-- Modelled from the spec: `tEvent.c` is not in the sources. §4.5/§4.6
`eventRemoveTask(task, msg, result)`: remove the task from the wait queue of
the event recorded in its `waitEvent` back-pointer, clear that binding and
the wait-state bit, and store the message and result for the task to read
when it resumes. -/
def tEventRemoveTask (task : tTask) (msg : Option Nat) (result : TErr) (q : EvQueues) :
    tTask × EvQueues :=
  match task.waitEvent with
  | some e =>
      ({ task with waitEvent := none, stateWaitEvent := false,
                   waitEventMsg := msg, waitEventResult := some result },
       evqRemove q e task.id)
  | none => (task, q)

/-- The delayed-list walk of `tTaskSystemTickHandler` (main.c lines
141–150): each task on `tTaskDelayedList` has `delayTicks` decremented; when
the count reaches 0 the task is removed from its event's wait queue with
result TIMEOUT if it was waiting (`tEventRemoveTask`), removed from the
delay list with its DELAYED bit cleared (`tTimeTaskWakeUp`), and made ready
(`tTaskSchedRdy`). Returns the remaining delayed list, the event queues, and
the scheduler state. -/
def tickDelayedWalk : List tTask → EvQueues → Sched → List tTask × EvQueues × Sched
  | [], q, s => ([], q, s)
  | task :: rest, q, s =>
      let t1 := { task with delayTicks := dec32 task.delayTicks }
      if t1.delayTicks = 0 then
        let tq := if t1.waitEvent.isSome then tEventRemoveTask t1 none TErr.timeOut q
                  else (t1, q)
        let t2 := { tq.1 with stateDelayed := false }
        tickDelayedWalk rest tq.2 (tTaskSchedRdy t2 s)
      else
        let out := tickDelayedWalk rest q s
        (t1 :: out.1, out.2.1, out.2.2)

/-- The state of a task woken by the tick walk: count decremented (to 0),
wait-event binding cleared with result TIMEOUT when present, DELAYED bit
cleared. -/
def tickWakeTransform (task : tTask) : tTask :=
  let t1 := { task with delayTicks := dec32 task.delayTicks }
  let t2 := (if t1.waitEvent.isSome then tEventRemoveTask t1 none TErr.timeOut []
             else (t1, ([] : EvQueues))).1
  { t2 with stateDelayed := false }

/-- The time-slice step of `tTaskSystemTickHandler` (main.c lines 152–159):
decrement `curTask->slice`; when it reaches 0 and the ready list of
`curTask`'s priority is non-empty, remove the head of that list, append
`curTask`'s node at the tail, and reset the slice to `TINYOS_SLICE_MAX`. -/
def tickSlicePhase (cur : tTask) (table : List (List Nat)) : tTask × List (List Nat) :=
  let cur1 := { cur with slice := dec32 cur.slice }
  if cur1.slice = 0 then
    let l := table.getD cur1.prio []
    if l.length > 0 then
      ({ cur1 with slice := TINYOS_SLICE_MAX },
       table.set cur1.prio (l.tail ++ [cur1.id]))
    else (cur1, table)
  else (cur1, table)

/-- CPU-usage measurement state of `main.c`. `cpuUsage` holds the 32-bit
unsigned value whose conversion to `float` the C code stores (exact for the
values that occur here). -/
structure CpuState where
  enableCpuUsageState : Nat
  tickCount : Nat
  idleCount : Nat
  idleMaxCount : Nat
  cpuUsage : Nat
deriving DecidableEq

/-- The value of the C expression `(1 - idleCount / idleMaxCount) * 100`
with both operands `uint32_t`: the division truncates, and the subtraction
and product wrap modulo 2^32. `none` when `idleMaxCount` is zero (division
by zero, undefined behavior). -/
def cpuUsageExpr (idleCount idleMaxCount : Nat) : Option Nat :=
  if idleMaxCount = 0 then none
  else some (((1 + UINT32_MOD - idleCount / idleMaxCount) % UINT32_MOD * 100) % UINT32_MOD)

/-- The specification's CPU-usage formula `(1 − idleCount / idleMaxCount) ×
100` read as an exact ratio over the two counters. Stated from the spec's
words, for comparison with `cpuUsageExpr`. -/
def specCpuUsageRatio (idleCount idleMaxCount : Nat) : ℚ :=
  (1 - (idleCount : ℚ) / (idleMaxCount : ℚ)) * 100

/-- `checkCpuUsage` (main.c lines 179–196): on the first call enable the
measurement and restart `tickCount`; on `tickCount = TICKS_PER_SEC`
calibrate `idleMaxCount` and re-enable the scheduler; on every later
multiple of `TICKS_PER_SEC` store the usage expression and reset
`idleCount`. The Boolean reports whether `tTaskSchedEnable` was called;
`none` models the division by zero. -/
def checkCpuUsage (c : CpuState) : Option (CpuState × Bool) :=
  if c.enableCpuUsageState = 0 then
    some ({ c with enableCpuUsageState := 1, tickCount := 0 }, false)
  else if c.tickCount = TICKS_PER_SEC then
    some ({ c with idleMaxCount := c.idleCount, idleCount := 0 }, true)
  else if c.tickCount % TICKS_PER_SEC = 0 then
    match cpuUsageExpr c.idleCount c.idleMaxCount with
    | none => none
    | some v => some ({ c with cpuUsage := v, idleCount := 0 }, false)
  else
    some (c, false)

/-- The synthetic stack contents written by `tTaskInit`: `N` words
(ascending addresses), zero-filled by `memset`, then the 16-word initial
frame written downward from the top: xPSR (Thumb bit), PC = entry,
LR = 0x14, R12, R3, R2, R1, R0 = param, R11 down to R4. -/
def tTaskInitStack (entry param : Nat) (N : Nat) : List Nat :=
  ((((((((((((((((List.replicate N 0).set (N-1) (1 <<< 24)).set (N-2) entry).set
    (N-3) 0x14).set (N-4) 0x12).set (N-5) 0x3).set (N-6) 0x2).set (N-7) 0x1).set
    (N-8) param).set (N-9) 0x11).set (N-10) 0x10).set (N-11) 0x9).set (N-12) 0x8).set
    (N-13) 0x7).set (N-14) 0x6).set (N-15) 0x5).set (N-16) 0x4

/-- `tTaskInit` (tTask.c lines 39–108): record the stack region, zero-fill
it, build the synthetic frame, initialize the task fields (state READY,
slice `TINYOS_SLICE_MAX`, suspend count 0, delay 0, cleanup nil, delete
flag 0) and add the task to its ready list via `tTaskSchedRdy`. Returns the
updated task, the stack words (`stackSize` is in bytes, a word is 4 bytes),
and the updated scheduler state. -/
def tTaskInit (task : tTask) (entry param prio stackSize : Nat) (s : Sched) :
    tTask × List Nat × Sched :=
  let N := stackSize / 4
  let t1 := { task with
    stackSize := stackSize
    stack := N - 16
    delayTicks := 0
    prio := prio
    stateDelayed := false, stateSuspend := false, stateWaitEvent := false
    slice := TINYOS_SLICE_MAX
    suspendCount := 0
    clean := none, cleanParam := none
    requestDeleteFlag := 0 }
  (t1, tTaskInitStack entry param N, tTaskSchedRdy t1 s)

/-- `tTaskSuspend` (tTask.c lines 120–140): a task whose DELAYED bit is set
is left untouched; otherwise the suspend count is incremented and, on the
transition to 1, the SUSPEND bit is set, the task leaves its ready list, and
`tTaskSched` runs when the task is the current one. The Boolean reports
whether `tTaskSched` was invoked. -/
def tTaskSuspend (task : tTask) (s : Sched) : tTask × Sched × Bool :=
  if task.stateDelayed then (task, s, false)
  else
    let t1 := { task with suspendCount := (task.suspendCount + 1) % UINT32_MOD }
    if t1.suspendCount ≤ 1 then
      let t2 := { t1 with stateSuspend := true }
      let s1 := tTaskSchedUnRdy t2 s
      if t2.id = s.curTask then (t2, (tTaskSched s1).1, true) else (t2, s1, false)
    else (t1, s, false)

/-- Timer states (`tTimerState`, tTimer.h lines 7–14). -/
inductive tTimerState where
  | tTimerCreated
  | tTimerStarted
  | tTimerRunning
  | tTimerStopped
  | tTimerDestroyed
deriving DecidableEq

/-- The hard-timer configuration bit `TIMER_CONFIG_TYPE_HARD` (tTimer.h). -/
def TIMER_CONFIG_TYPE_HARD : Nat := 1

/-- Timer object (`tTimer`, tTimer.h). `id` stands for the timer's identity
(the address of the C structure); the callback and its argument are carried
as opaque numbers. -/
structure tTimer where
  id : Nat
  startDelayTicks : Nat := 0
  durationTicks : Nat := 0
  delayTicks : Nat := 0
  timerFunc : Nat := 0
  arg : Nat := 0
  config : Nat := 0
  state : tTimerState := .tTimerCreated
deriving DecidableEq

/-- The two timer lists of the timer module (`tTimerHardList`,
`tTimerSoftList`), as lists of timer ids. -/
structure TimerLists where
  hard : List Nat
  soft : List Nat
deriving DecidableEq

/-- `tTimerInit` (tTimer.c lines 23–43): set the fields, choose the initial
countdown (`durationTicks` when the start delay is 0, the start delay
otherwise), state CREATED. -/
def tTimerInit (id delayTicks durationTicks timerFunc arg config : Nat) : tTimer :=
  { id := id
    startDelayTicks := delayTicks
    durationTicks := durationTicks
    delayTicks := if delayTicks = 0 then durationTicks else delayTicks
    timerFunc := timerFunc
    arg := arg
    config := config
    state := .tTimerCreated }

/-- `tTimerStart` (tTimer.c lines 52–79): only from CREATED or STOPPED;
reset the countdown, move to STARTED, and insert at the head of the hard
list or the tail of the soft list according to the config bit. Any other
state: no effect. -/
def tTimerStart (timer : tTimer) (m : TimerLists) : tTimer × TimerLists :=
  match timer.state with
  | .tTimerCreated | .tTimerStopped =>
      let t1 := { timer with
        delayTicks := if timer.startDelayTicks ≠ 0 then timer.startDelayTicks
                      else timer.durationTicks
        state := .tTimerStarted }
      if timer.config &&& TIMER_CONFIG_TYPE_HARD ≠ 0 then
        (t1, { m with hard := t1.id :: m.hard })
      else
        (t1, { m with soft := m.soft ++ [t1.id] })
  | _ => (timer, m)

/-- `tTimerStop` (tTimer.c lines 88–111): only from STARTED or RUNNING;
remove the timer from its list. The source performs no state transition
here: the timer's `state` field is left as it was. -/
def tTimerStop (timer : tTimer) (m : TimerLists) : tTimer × TimerLists :=
  match timer.state with
  | .tTimerStarted | .tTimerRunning =>
      if timer.config &&& TIMER_CONFIG_TYPE_HARD ≠ 0 then
        (timer, { m with hard := m.hard.erase timer.id })
      else
        (timer, { m with soft := m.soft.erase timer.id })
  | _ => (timer, m)

/-- A stop operation that follows the spec's words (§4.12 "stop(timer): only
from STARTED or RUNNING; remove from list; transition to STOPPED"), for
comparison with the source's `tTimerStop`. -/
def specTimerStop (timer : tTimer) (m : TimerLists) : tTimer × TimerLists :=
  match timer.state with
  | .tTimerStarted | .tTimerRunning =>
      if timer.config &&& TIMER_CONFIG_TYPE_HARD ≠ 0 then
        ({ timer with state := .tTimerStopped }, { m with hard := m.hard.erase timer.id })
      else
        ({ timer with state := .tTimerStopped }, { m with soft := m.soft.erase timer.id })
  | _ => (timer, m)

/-- The per-timer step of the scan `tTimerCallFuncList` (tTimer.c lines
124–142). Fire condition is the C short-circuit
`(delayTicks == 0) || (--delayTicks == 0)`: the decrement happens only when
the countdown was non-zero. On firing the state passes through RUNNING (the
callback runs there) back to STARTED; a periodic timer reloads its
countdown, a one-shot timer leaves the list and becomes STOPPED. Returns
(updated timer, fired?, stays on the list?). -/
def tTimerProcess (timer : tTimer) : tTimer × Bool × Bool :=
  if timer.delayTicks = 0 ∨ timer.delayTicks - 1 = 0 then
    let t1 := if timer.delayTicks = 0 then timer
              else { timer with delayTicks := timer.delayTicks - 1 }
    let t2 := { t1 with state := .tTimerStarted }
    if timer.durationTicks > 0 then
      ({ t2 with delayTicks := timer.durationTicks }, true, true)
    else
      ({ t2 with state := .tTimerStopped }, true, false)
  else
    ({ timer with delayTicks := timer.delayTicks - 1 }, false, true)

/-- The scan `tTimerCallFuncList` over a whole timer list: returns the
timers remaining on the list (in order), the timers removed by the scan
(with their final fields), and the ids of the timers whose callback was
invoked. -/
def tTimerCallFuncList : List tTimer → List tTimer × List tTimer × List Nat
  | [] => ([], [], [])
  | timer :: rest =>
      let p := tTimerProcess timer
      let out := tTimerCallFuncList rest
      (if p.2.2 then p.1 :: out.1 else out.1,
       if p.2.2 then out.2.1 else p.1 :: out.2.1,
       if p.2.1 then timer.id :: out.2.2 else out.2.2)

/-- The stack-free measurement loop of `tTaskGetInfo` (tTask.c lines
303–306), one word read per step: read the word at index `i` (`none` when
the read falls outside the stack region), then continue while the word was
zero and the incremented pointer still satisfies the C bound
`stackEnd <= stackBase + stackSize / sizeof(tTaskStack)`. Returns the
counted number of free words, or `none` when a read leaves the region. -/
def tTaskStackCountGo : List Nat → Nat → Nat → Nat → Option Nat
  | [], _, _, _ => none
  | w :: rest, bound, i, acc =>
      if w = 0 ∧ i + 1 ≤ bound then tTaskStackCountGo rest bound (i + 1) (acc + 1)
      else some acc

/-- The full stack-free scan of `tTaskGetInfo` over the stack words of a
task, starting at `stackBase` with the bound `stackSize / 4` words. -/
def tTaskStackFreeCount (words : List Nat) : Option Nat :=
  tTaskStackCountGo words words.length 0 0

/-- An element-preserving `List.set` is the identity. -/
theorem list_set_self {α : Type} : ∀ (l : List α) (i : Nat) (v : α),
    l[i]? = some v → l.set i v = l
  | [], i, v, h => by simp at h
  | a :: t, 0, v, h => by simp_all
  | a :: t, i + 1, v, h => by
      simp only [List.getElem?_cons_succ] at h
      simp [list_set_self t i v h]

/-- Scheduler well-formedness: the ready table has one list per priority. -/
def schedWF (s : Sched) : Prop := s.taskTable.length = 32

/-- Reading back an updated slot of the ready table. -/
theorem getD_set_self {α : Type} (l : List α) (i : Nat) (v d : α) (h : i < l.length) :
    (l.set i v).getD i d = v := by
  simp [List.getD_eq_getElem?_getD, List.getElem?_set_self h]

/-- Reading an untouched slot of the ready table. -/
theorem getD_set_ne {α : Type} (l : List α) (i j : Nat) (v d : α) (h : i ≠ j) :
    (l.set i v).getD j d = l.getD j d := by
  simp [List.getD_eq_getElem?_getD, List.getElem?_set_ne h]

/-- `tBitMapSet` sets the requested bit. -/
theorem testBit_tBitMapSet_self (b i : Nat) : (tBitMapSet b i).testBit i = true := by
  simp [tBitMapSet, Nat.one_shiftLeft, Nat.testBit_two_pow]

/-- `tBitMapSet` leaves every other bit alone. -/
theorem testBit_tBitMapSet_ne (b i j : Nat) (h : i ≠ j) :
    (tBitMapSet b i).testBit j = b.testBit j := by
  simp [tBitMapSet, Nat.one_shiftLeft, Nat.testBit_two_pow, h]

/-- `tBitMapClear` clears the requested bit (inside the 32-bit map). -/
theorem testBit_tBitMapClear_self (b i : Nat) (h : i < 32) :
    (tBitMapClear b i).testBit i = false := by
  have hcl : tBitMapClear b i = b &&& ((2 ^ 32 - 1) ^^^ (2 ^ i)) := by
    rw [tBitMapClear, Nat.one_shiftLeft]
  rw [hcl, Nat.testBit_and, Nat.testBit_xor, Nat.testBit_two_pow_sub_one,
    Nat.testBit_two_pow]
  simp [h]

/-- `tBitMapClear` leaves every other bit of the 32-bit map alone. -/
theorem testBit_tBitMapClear_ne (b i j : Nat) (hj : j < 32) (h : i ≠ j) :
    (tBitMapClear b i).testBit j = b.testBit j := by
  have hcl : tBitMapClear b i = b &&& ((2 ^ 32 - 1) ^^^ (2 ^ i)) := by
    rw [tBitMapClear, Nat.one_shiftLeft]
  rw [hcl, Nat.testBit_and, Nat.testBit_xor, Nat.testBit_two_pow_sub_one,
    Nat.testBit_two_pow]
  simp [hj, h]

/-- The ready-bitmap invariant is preserved by `tTaskSchedRdy`. -/
theorem schedInv_tTaskSchedRdy (task : tTask) (s : Sched) (hwf : schedWF s)
    (hp : task.prio < 32) (h : schedInv s) : schedInv (tTaskSchedRdy task s) := by
  intro p hp32
  have htab : (tTaskSchedRdy task s).taskTable
      = s.taskTable.set task.prio (task.id :: s.taskTable.getD task.prio []) := rfl
  have hbm : (tTaskSchedRdy task s).prioBitMap = tBitMapSet s.prioBitMap task.prio := rfl
  rw [htab, hbm]
  by_cases hpp : task.prio = p
  · subst hpp
    rw [getD_set_self _ _ _ _ (by rw [hwf]; exact hp), testBit_tBitMapSet_self]
    simp
  · rw [getD_set_ne _ _ _ _ _ hpp, testBit_tBitMapSet_ne _ _ _ hpp]
    exact h p hp32

/-- The ready-bitmap invariant is preserved by `tTaskSchedUnRdy`. -/
theorem schedInv_tTaskSchedUnRdy (task : tTask) (s : Sched) (hwf : schedWF s)
    (hp : task.prio < 32) (h : schedInv s) : schedInv (tTaskSchedUnRdy task s) := by
  intro p hp32
  have htab : (tTaskSchedUnRdy task s).taskTable
      = s.taskTable.set task.prio ((s.taskTable.getD task.prio []).erase task.id) := rfl
  have hbm : (tTaskSchedUnRdy task s).prioBitMap
      = if ((s.taskTable.getD task.prio []).erase task.id).length = 0
        then tBitMapClear s.prioBitMap task.prio else s.prioBitMap := rfl
  rw [htab, hbm]
  by_cases hlen : ((s.taskTable.getD task.prio []).erase task.id).length = 0
  · rw [if_pos hlen]
    have hnil : (s.taskTable.getD task.prio []).erase task.id = [] :=
      List.length_eq_zero.mp hlen
    by_cases hpp : task.prio = p
    · subst hpp
      rw [getD_set_self _ _ _ _ (by rw [hwf]; exact hp),
        testBit_tBitMapClear_self _ _ hp, hnil]
      simp
    · rw [getD_set_ne _ _ _ _ _ hpp, testBit_tBitMapClear_ne _ _ _ hp32 hpp]
      exact h p hp32
  · rw [if_neg hlen]
    have hne : (s.taskTable.getD task.prio []).erase task.id ≠ [] := by
      intro hc; exact hlen (by rw [hc]; rfl)
    by_cases hpp : task.prio = p
    · subst hpp
      rw [getD_set_self _ _ _ _ (by rw [hwf]; exact hp)]
      have horig : s.taskTable.getD task.prio [] ≠ [] := by
        intro hc; apply hne; rw [hc]; rfl
      have hbit := (h task.prio hp32).mp horig
      rw [hbit]
      exact iff_of_true hne rfl
    · rw [getD_set_ne _ _ _ _ _ hpp]
      exact h p hp32

/-- `tTaskSchedRemove` has the same body as `tTaskSchedUnRdy`. -/
theorem tTaskSchedRemove_eq_unRdy (task : tTask) (s : Sched) :
    tTaskSchedRemove task s = tTaskSchedUnRdy task s := rfl

/-- `tTaskSched` touches only `nextTask`, so it preserves the invariant. -/
theorem schedInv_tTaskSched (s : Sched) (h : schedInv s) : schedInv (tTaskSched s).1 := by
  unfold tTaskSched
  split
  · exact h
  · cases htr : tTaskHighestReady s with
    | none => exact h
    | some t =>
        simp only [htr]
        split
        · intro p hp32; exact h p hp32
        · exact h

/-- The ready-bitmap invariant is preserved by `tTaskSchedEnable`. -/
theorem schedInv_tTaskSchedEnable (s : Sched) (h : schedInv s) :
    schedInv (tTaskSchedEnable s).1 := by
  by_cases h0 : s.schedLockCounter > 0
  · by_cases h1 : s.schedLockCounter - 1 = 0
    · have : tTaskSchedEnable s
          = tTaskSched { s with schedLockCounter := s.schedLockCounter - 1 } := by
        unfold tTaskSchedEnable
        rw [if_pos h0]
        exact if_pos h1
      rw [this]
      exact schedInv_tTaskSched _ (fun p hp => h p hp)
    · have : tTaskSchedEnable s
          = ({ s with schedLockCounter := s.schedLockCounter - 1 }, false) := by
        unfold tTaskSchedEnable
        rw [if_pos h0]
        exact if_neg h1
      rw [this]
      exact fun p hp => h p hp
  · have : tTaskSchedEnable s = (s, false) := by
      unfold tTaskSchedEnable
      exact if_neg h0
    rw [this]
    exact h

/-- The scheduler state right after boot-time initialization: the idle task
(id 7 here) alone, ready at the lowest priority 31, invariant holding. -/
def schedC1State : Sched :=
  { taskTable := List.replicate 31 [] ++ [[7]]
    prioBitMap := 2 ^ 31
    schedLockCounter := 0
    curTask := 7
    nextTask := 7 }

/-- C1: the ready-bitmap invariant (`taskTable[p]` non-empty iff bit `p`
set) is NOT preserved by `tTaskSchedDisable`: the source re-initializes the
whole `taskPrioBitMap` there, so from the boot state with the idle task
ready at priority 31 the bitmap loses bit 31 while `taskTable[31]` stays
non-empty. (`tTaskSchedRdy`, `tTaskSchedUnRdy`, `tTaskSchedRemove` and
`tTaskSchedEnable` do preserve the invariant, see the lemmas above.) -/
theorem c1_schedDisable_breaks_ready_bitmap_invariant :
    schedInv schedC1State
    ∧ ¬ schedInv (tTaskSchedDisable schedC1State)
    ∧ (tTaskSchedDisable schedC1State).taskTable.getD 31 [] ≠ []
    ∧ (tTaskSchedDisable schedC1State).prioBitMap.testBit 31 = false := by
  refine ⟨by decide, by decide, by decide, by decide⟩

/-- A scheduler state whose highest-ready task (id 5, priority 0) differs
from the current task (id 9). -/
def schedC4State : Sched :=
  { taskTable := [5] :: List.replicate 31 []
    prioBitMap := 1
    schedLockCounter := 0
    curTask := 9
    nextTask := 9 }

/-- C4: `tTaskSched` does nothing under a scheduler lock; otherwise it picks
the head of the ready list of the lowest set priority bit and, exactly when
that task differs from `curTask`, sets `nextTask` to it and triggers the
switch; when it equals `curTask` the state is unchanged and no switch is
triggered. -/
theorem c4_tTaskSched_characterization (s : Sched) :
    (s.schedLockCounter > 0 → tTaskSched s = (s, false))
    ∧ (tTaskHighestReady s
         = (s.taskTable.getD (tBitMapGetFirstSet s.prioBitMap) []).head?)
    ∧ (∀ t, s.schedLockCounter = 0 → tTaskHighestReady s = some t →
         (t ≠ s.curTask → tTaskSched s = ({ s with nextTask := t }, true))
         ∧ (t = s.curTask → tTaskSched s = (s, false))) := by
  refine ⟨?_, rfl, ?_⟩
  · intro hl
    unfold tTaskSched
    simp [hl]
  · intro t hl hr
    constructor
    · intro hne
      unfold tTaskSched
      simp [hl, hr, hne]
    · intro heq
      unfold tTaskSched
      simp [hl, hr, heq]

/-- Witness for C4: in `schedC4State` the scheduler is unlocked, the highest
ready task is 5 ≠ curTask 9, so `tTaskSched` selects it and switches. -/
theorem c4_tTaskSched_witness :
    tTaskSched schedC4State = ({ schedC4State with nextTask := 5 }, true) :=
  ((c4_tTaskSched_characterization schedC4State).2.2 5 (by decide) (by decide)).1 (by decide)

/-- A task sitting on the delay list (DELAYED bit set). -/
def c9Task : tTask := { id := 2, prio := 3, suspendCount := 0, stateDelayed := true }

/-- C9: `tTaskSuspend` on a task whose DELAYED bit is set changes nothing:
same task record (suspend count and state bits included), same scheduler
state (no ready-queue removal), and no reschedule. -/
theorem c9_suspend_delayed_is_noop (task : tTask) (s : Sched)
    (h : task.stateDelayed = true) :
    tTaskSuspend task s = (task, s, false) := by
  unfold tTaskSuspend
  simp [h]

/-- Witness for C9 at a concrete delayed task and scheduler state. -/
theorem c9_suspend_delayed_witness :
    tTaskSuspend c9Task schedC1State = (c9Task, schedC1State, false) :=
  c9_suspend_delayed_is_noop c9Task schedC1State rfl

/-- The slice step written as nested conditionals (pure unfolding of
`tickSlicePhase`). -/
theorem tickSlicePhase_eq (cur : tTask) (table : List (List Nat)) :
    tickSlicePhase cur table
      = (if dec32 cur.slice = 0 then
           if 0 < (table.getD cur.prio []).length then
             ({ cur with slice := TINYOS_SLICE_MAX },
              table.set cur.prio ((table.getD cur.prio []).tail ++ [cur.id]))
           else ({ cur with slice := dec32 cur.slice }, table)
         else ({ cur with slice := dec32 cur.slice }, table)) := rfl

/-- C3 (amended): when the slice decrements to 0 the source rotates and
resets the slice whenever the ready list of `curTask`'s priority is
non-empty (`tListCount > 0`), not only with at least 2 entries: the head is
removed, `curTask`'s node is appended, and the slice is reset to
`TINYOS_SLICE_MAX`. For a singly-occupied list `[curTask]` the list is
structurally unchanged but the slice is still reset; only with an empty
list does nothing beyond the decrement happen. -/
theorem c3_slice_rotation_characterization (cur : tTask) (table : List (List Nat))
    (h : dec32 cur.slice = 0) :
    (0 < (table.getD cur.prio []).length →
       tickSlicePhase cur table
         = ({ cur with slice := TINYOS_SLICE_MAX },
            table.set cur.prio ((table.getD cur.prio []).tail ++ [cur.id])))
    ∧ (table.getD cur.prio [] = [cur.id] →
        (tickSlicePhase cur table).2 = table
        ∧ (tickSlicePhase cur table).1.slice = TINYOS_SLICE_MAX)
    ∧ (table.getD cur.prio [] = [] →
        tickSlicePhase cur table = ({ cur with slice := dec32 cur.slice }, table)) := by
  rw [tickSlicePhase_eq, if_pos h]
  refine ⟨?_, ?_, ?_⟩
  · intro hlen
    rw [if_pos hlen]
  · intro hsingle
    have hlen : 0 < (table.getD cur.prio []).length := by rw [hsingle]; simp
    rw [if_pos hlen]
    refine ⟨?_, rfl⟩
    have hget : table[cur.prio]? = some [cur.id] := by
      cases hx : table[cur.prio]? with
      | none =>
          exfalso
          have : table.getD cur.prio [] = [] := by
            simp [List.getD_eq_getElem?_getD, hx]
          rw [this] at hsingle; exact (List.cons_ne_nil _ _) hsingle.symm
      | some v =>
          have : table.getD cur.prio [] = v := by
            simp [List.getD_eq_getElem?_getD, hx]
          rw [this] at hsingle; rw [hsingle]
    rw [hsingle]
    exact list_set_self table cur.prio [cur.id] hget
  · intro hempty
    rw [hempty]
    simp

/-- The current task of the C3 counterexample: alone at priority 0 with one
slice tick left. -/
def c3Task : tTask := { id := 0, prio := 0, slice := 1 }

/-- C3 counterexample: with `taskTable[0] = [curTask]` (a singly-occupied
ready list) and the slice decrementing to 0, the source still resets the
slice to `TINYOS_SLICE_MAX`, while the claim says the slice is left
unchanged (it would stay 0). The list itself is indeed unchanged. -/
theorem c3_counterexample :
    dec32 c3Task.slice = 0
    ∧ ([[0]].getD c3Task.prio []).length = 1
    ∧ (tickSlicePhase c3Task [[0]]).2 = [[0]]
    ∧ (tickSlicePhase c3Task [[0]]).1.slice = TINYOS_SLICE_MAX
    ∧ TINYOS_SLICE_MAX ≠ dec32 c3Task.slice := by
  refine ⟨by decide, by decide, by decide, by decide, by decide⟩

/-- Witness for C3 at the singly-occupied ready list `[[0]]`. -/
theorem c3_slice_rotation_witness :
    (tickSlicePhase c3Task [[0]]).2 = [[0]]
    ∧ (tickSlicePhase c3Task [[0]]).1.slice = TINYOS_SLICE_MAX :=
  (c3_slice_rotation_characterization c3Task [[0]] (by decide)).2.1 (by decide)

/-- C5 (amended): after the calibration second, on every later tick with
`tickCount` a multiple of `TICKS_PER_SEC` the source stores
`(1 - idleCount / idleMaxCount) * 100` computed in unsigned 32-bit integer
arithmetic with truncating division — so exactly 100 whenever
`idleCount < idleMaxCount` — and resets `idleCount`; the division is not
gated: `idleMaxCount = 0` reaches a division by zero (modelled `none`). -/
theorem c5_checkCpuUsage_characterization (c : CpuState)
    (hEn : c.enableCpuUsageState ≠ 0)
    (hTick : c.tickCount ≠ TICKS_PER_SEC)
    (hMul : c.tickCount % TICKS_PER_SEC = 0) :
    (c.idleMaxCount = 0 → checkCpuUsage c = none)
    ∧ (c.idleMaxCount ≠ 0 →
        checkCpuUsage c
          = some ({ c with
              cpuUsage := (1 + UINT32_MOD - c.idleCount / c.idleMaxCount) % UINT32_MOD
                            * 100 % UINT32_MOD
              idleCount := 0 }, false))
    ∧ (c.idleCount < c.idleMaxCount →
        checkCpuUsage c = some ({ c with cpuUsage := 100, idleCount := 0 }, false)) := by
  have hbranch : ∀ r : Option (CpuState × Bool),
      (match cpuUsageExpr c.idleCount c.idleMaxCount with
        | none => (none : Option (CpuState × Bool))
        | some v => some ({ c with cpuUsage := v, idleCount := 0 }, false)) = r →
      checkCpuUsage c = r := by
    intro r hr
    rw [← hr]
    unfold checkCpuUsage
    rw [if_neg hEn, if_neg hTick, if_pos hMul]
  refine ⟨?_, ?_, ?_⟩
  · intro hz
    apply hbranch
    unfold cpuUsageExpr
    rw [if_pos hz]
  · intro hnz
    apply hbranch
    unfold cpuUsageExpr
    rw [if_neg hnz]
  · intro hlt
    apply hbranch
    unfold cpuUsageExpr
    rw [if_neg (by omega)]
    have hdiv : c.idleCount / c.idleMaxCount = 0 := Nat.div_eq_of_lt hlt
    rw [hdiv]
    have hval : (1 + UINT32_MOD - 0) % UINT32_MOD * 100 % UINT32_MOD = 100 := by
      simp only [UINT32_MOD]
      norm_num
    rw [hval]

/-- A CPU-usage state one tick into the second measurement second, with the
idle loop having run 1 of its calibrated 2 iterations. -/
def c5State : CpuState :=
  { enableCpuUsageState := 1, tickCount := 200, idleCount := 1, idleMaxCount := 2,
    cpuUsage := 0 }

/-- The same state with a zero calibration count. -/
def c5ZeroState : CpuState :=
  { enableCpuUsageState := 1, tickCount := 200, idleCount := 5, idleMaxCount := 0,
    cpuUsage := 0 }

/-- C5 counterexample: at `idleCount = 1, idleMaxCount = 2` the source
stores 100 (truncating unsigned division) although the exact ratio of the
claim is 50, and at `idleMaxCount = 0` it reaches the ungated division by
zero instead of skipping the update. -/
theorem c5_counterexample :
    checkCpuUsage c5State = some ({ c5State with cpuUsage := 100, idleCount := 0 }, false)
    ∧ specCpuUsageRatio c5State.idleCount c5State.idleMaxCount = 50
    ∧ (100 : ℚ) ≠ 50
    ∧ checkCpuUsage c5ZeroState = none := by
  refine ⟨by decide, ?_, by norm_num, by decide⟩
  norm_num [specCpuUsageRatio, c5State]

/-- Witness for C5 at the concrete state `c5State`. -/
theorem c5_checkCpuUsage_witness :
    checkCpuUsage c5State = some ({ c5State with cpuUsage := 100, idleCount := 0 }, false) :=
  (c5_checkCpuUsage_characterization c5State (by decide) (by decide) (by decide)).2.2
    (by decide)

/-- C6 (amended): during a scan, a timer's callback is invoked exactly when
its countdown is already 0 or the decrement makes it reach 0 (the source
condition is the short-circuit `(delayTicks == 0) || (--delayTicks == 0)`);
a fired periodic timer ends STARTED with its countdown reloaded from
`durationTicks` and stays on the list; a fired one-shot timer
(`durationTicks = 0`) leaves the list in state STOPPED with countdown 0;
a timer that does not fire is only decremented. The list-level part ties
the invoked callbacks of `tTimerCallFuncList` to that condition. -/
theorem c6_timer_scan_characterization :
    (∀ t : tTimer,
       ((tTimerProcess t).2.1 = true ↔ (t.delayTicks = 0 ∨ t.delayTicks = 1))
       ∧ (t.delayTicks = 0 ∨ t.delayTicks = 1 →
            (0 < t.durationTicks →
               tTimerProcess t
                 = ({ t with delayTicks := t.durationTicks, state := .tTimerStarted },
                    true, true))
            ∧ (t.durationTicks = 0 →
               (tTimerProcess t).1.state = .tTimerStopped
               ∧ (tTimerProcess t).2.2 = false
               ∧ (tTimerProcess t).1.delayTicks = 0))
       ∧ (t.delayTicks ≠ 0 → t.delayTicks ≠ 1 →
            tTimerProcess t = ({ t with delayTicks := t.delayTicks - 1 }, false, true)))
    ∧ (∀ l : List tTimer,
         (tTimerCallFuncList l).2.2
           = (l.filter fun t => t.delayTicks == 0 || t.delayTicks == 1).map
               (fun t => t.id)) := by
  have hfire : ∀ t : tTimer,
      (t.delayTicks = 0 ∨ t.delayTicks - 1 = 0) ↔ (t.delayTicks = 0 ∨ t.delayTicks = 1) := by
    intro t; omega
  have hstep : ∀ t : tTimer,
      ((tTimerProcess t).2.1 = true ↔ (t.delayTicks = 0 ∨ t.delayTicks = 1))
      ∧ (t.delayTicks = 0 ∨ t.delayTicks = 1 →
           (0 < t.durationTicks →
              tTimerProcess t
                = ({ t with delayTicks := t.durationTicks, state := .tTimerStarted },
                   true, true))
           ∧ (t.durationTicks = 0 →
              (tTimerProcess t).1.state = .tTimerStopped
              ∧ (tTimerProcess t).2.2 = false
              ∧ (tTimerProcess t).1.delayTicks = 0))
      ∧ (t.delayTicks ≠ 0 → t.delayTicks ≠ 1 →
           tTimerProcess t = ({ t with delayTicks := t.delayTicks - 1 }, false, true)) := by
    intro t
    by_cases hf : t.delayTicks = 0 ∨ t.delayTicks = 1
    · refine ⟨?_, ?_, ?_⟩
      · unfold tTimerProcess
        rw [if_pos ((hfire t).mpr hf)]
        by_cases hdur : 0 < t.durationTicks
        · rw [if_pos hdur]; simp [hf]
        · rw [if_neg hdur]; simp [hf]
      · intro _
        constructor
        · intro hdur
          unfold tTimerProcess
          rw [if_pos ((hfire t).mpr hf), if_pos hdur]
          rcases hf with h0 | h1
          · rw [if_pos h0]
          · have : ¬ t.delayTicks = 0 := by omega
            rw [if_neg this]
        · intro hdur
          unfold tTimerProcess
          rw [if_pos ((hfire t).mpr hf), if_neg (by omega)]
          rcases hf with h0 | h1
          · rw [if_pos h0]
            exact ⟨rfl, rfl, h0⟩
          · have : ¬ t.delayTicks = 0 := by omega
            rw [if_neg this]
            exact ⟨rfl, rfl, by simp [h1]⟩
      · intro h0 h1
        exact absurd hf (by simp [h0, h1])
    · push_neg at hf
      refine ⟨?_, ?_, ?_⟩
      · unfold tTimerProcess
        rw [if_neg (by omega)]
        simp [hf]
      · intro hc; exact absurd hc (by simp [hf.1, hf.2])
      · intro _ _
        unfold tTimerProcess
        rw [if_neg (by omega)]
  refine ⟨hstep, ?_⟩
  intro l
  induction l with
  | nil => rfl
  | cons t rest ih =>
      unfold tTimerCallFuncList
      by_cases hf : t.delayTicks = 0 ∨ t.delayTicks = 1
      · have hfired : (tTimerProcess t).2.1 = true := ((hstep t).1).mpr hf
        have hfilter : (t.delayTicks == 0 || t.delayTicks == 1) = true := by
          rcases hf with h | h <;> simp [h]
        simp [List.filter_cons, hfired, hfilter, ih]
      · have hfired : (tTimerProcess t).2.1 = false := by
          cases hx : (tTimerProcess t).2.1 with
          | true => exact absurd (((hstep t).1).mp hx) hf
          | false => rfl
        have hfilter : ¬ (t.delayTicks == 0 || t.delayTicks == 1) = true := by
          push_neg at hf
          simp [hf.1, hf.2]
        simp [List.filter_cons, hfired, hfilter, ih]

/-- A started one-shot timer whose countdown is already 0 (obtainable from
`tTimerInit` with both the start delay and the period 0, then
`tTimerStart`). -/
def c6Timer : tTimer :=
  { id := 1, durationTicks := 0, delayTicks := 0, state := .tTimerStarted }

/-- C6 counterexample: a timer with countdown already 0 fires during the
scan although no decrement made its countdown reach 0 (its previous
countdown was not 1, and even under 32-bit wrap-around a decrement of 0 is
not 0). -/
theorem c6_counterexample :
    (tTimerProcess c6Timer).2.1 = true
    ∧ c6Timer.delayTicks ≠ 1
    ∧ dec32 c6Timer.delayTicks ≠ 0 := by
  refine ⟨by decide, by decide, by decide⟩

/-- A started periodic timer one tick from expiring. -/
def c6PeriodicTimer : tTimer :=
  { id := 2, durationTicks := 5, delayTicks := 1, state := .tTimerStarted }

/-- Witness for C6: the periodic timer fires when its countdown decrements
to 0, ends STARTED with the countdown reloaded, and stays on the list. -/
theorem c6_timer_scan_witness :
    tTimerProcess c6PeriodicTimer
      = ({ c6PeriodicTimer with delayTicks := 5, state := .tTimerStarted }, true, true) :=
  ((c6_timer_scan_characterization.1 c6PeriodicTimer).2.1 (Or.inr rfl)).1 (by decide)

/-- The hard one-shot timer of the C7 run (`tTimerInit(timer, 5, 0, fn,
arg, TIMER_CONFIG_TYPE_HARD)`). -/
def c7Timer : tTimer := tTimerInit 1 5 0 0 0 1

/-- Empty timer lists. -/
def c7Lists : TimerLists := { hard := [], soft := [] }

/-- C7: start→stop→start does NOT reproduce a fresh init→start. The source's
`tTimerStop` removes the timer from its list but never performs the
STARTED→STOPPED transition, so the second `tTimerStart` (which acts only
from CREATED or STOPPED) is a no-op: the timer ends in state STARTED while
sitting on no list, whereas after a fresh init→start it is STARTED on the
hard list. -/
theorem c7_stop_start_differs_from_fresh_start :
    (tTimerStart c7Timer c7Lists).1.state = .tTimerStarted
    ∧ (tTimerStart c7Timer c7Lists).2.hard = [1]
    ∧ (let a := tTimerStart c7Timer c7Lists
       let b := tTimerStop a.1 a.2
       let c := tTimerStart b.1 b.2
       b.1.state = .tTimerStarted
       ∧ c.1.state = .tTimerStarted
       ∧ c.2.hard = []
       ∧ c.2.soft = []) := by
  refine ⟨by decide, by decide, by decide, by decide, by decide, by decide⟩

/-- With the spec's stop (STARTED→STOPPED transition included),
start→stop→start does equal a fresh init→start — evidence that the missing
transition in the source's `tTimerStop` is the slip. -/
theorem specTimerStop_roundtrip (i d dur f a cfg : Nat) (m : TimerLists)
    (h1 : i ∉ m.hard) (h2 : i ∉ m.soft) :
    (let t0 := tTimerInit i d dur f a cfg
     let s1 := tTimerStart t0 m
     let s2 := specTimerStop s1.1 s1.2
     tTimerStart s2.1 s2.2 = s1) := by
  simp only [tTimerInit, tTimerStart, specTimerStop, TIMER_CONFIG_TYPE_HARD]
  by_cases hcfg : cfg &&& 1 ≠ 0
  · simp only [if_pos hcfg]
    simp [List.erase_cons_head]
  · simp only [if_neg hcfg]
    simp only [List.erase_append_right _ h2]
    simp

/-- The synthetic stack has exactly `N` words. -/
theorem tTaskInitStack_length (entry param N : Nat) :
    (tTaskInitStack entry param N).length = N := by
  unfold tTaskInitStack
  simp

/-- Below the 16-word frame every stack word is the sentinel 0. -/
theorem tTaskInitStack_getD_low (entry param N i : Nat) (hN : 16 ≤ N)
    (hi : i < N - 16) :
    (tTaskInitStack entry param N).getD i 1 = 0 := by
  unfold tTaskInitStack
  rw [List.getD_eq_getElem?_getD,
    List.getElem?_set_ne (by omega), List.getElem?_set_ne (by omega),
    List.getElem?_set_ne (by omega), List.getElem?_set_ne (by omega),
    List.getElem?_set_ne (by omega), List.getElem?_set_ne (by omega),
    List.getElem?_set_ne (by omega), List.getElem?_set_ne (by omega),
    List.getElem?_set_ne (by omega), List.getElem?_set_ne (by omega),
    List.getElem?_set_ne (by omega), List.getElem?_set_ne (by omega),
    List.getElem?_set_ne (by omega), List.getElem?_set_ne (by omega),
    List.getElem?_set_ne (by omega), List.getElem?_set_ne (by omega),
    List.getElem?_replicate_of_lt (by omega)]
  rfl

/-- The lowest word of the synthetic frame (saved R4) is 0x4, non-zero. -/
theorem tTaskInitStack_getD_frame (entry param N : Nat) (hN : 16 ≤ N) :
    (tTaskInitStack entry param N).getD (N - 16) 1 = 4 := by
  unfold tTaskInitStack
  rw [List.getD_eq_getElem?_getD,
    List.getElem?_set_self (by simp only [List.length_set, List.length_replicate]; omega)]
  rfl

/-- C8: after `tTaskInit` the stack region below the synthetic frame is
zero-filled; the task is READY (no state bits), has slice
`TINYOS_SLICE_MAX`, suspend count 0, delay 0, nil cleanup and parameter,
delete flag 0; and it sits at the head of `taskTable[prio]` with bit `prio`
set in the bitmap. -/
theorem c8_tTaskInit_characterization (task : tTask) (entry param prio stackSize : Nat)
    (s : Sched) (hN : 16 ≤ stackSize / 4) (hp : prio < s.taskTable.length) :
    (∀ i < stackSize / 4 - 16,
       (tTaskInit task entry param prio stackSize s).2.1.getD i 1 = 0)
    ∧ (tTaskInit task entry param prio stackSize s).1.stateDelayed = false
    ∧ (tTaskInit task entry param prio stackSize s).1.stateSuspend = false
    ∧ (tTaskInit task entry param prio stackSize s).1.stateWaitEvent = false
    ∧ (tTaskInit task entry param prio stackSize s).1.slice = TINYOS_SLICE_MAX
    ∧ (tTaskInit task entry param prio stackSize s).1.suspendCount = 0
    ∧ (tTaskInit task entry param prio stackSize s).1.delayTicks = 0
    ∧ (tTaskInit task entry param prio stackSize s).1.clean = none
    ∧ (tTaskInit task entry param prio stackSize s).1.cleanParam = none
    ∧ (tTaskInit task entry param prio stackSize s).1.requestDeleteFlag = 0
    ∧ ((tTaskInit task entry param prio stackSize s).2.2.taskTable.getD prio []).head?
        = some task.id
    ∧ (tTaskInit task entry param prio stackSize s).2.2.prioBitMap.testBit prio = true := by
  refine ⟨?_, rfl, rfl, rfl, rfl, rfl, rfl, rfl, rfl, rfl, ?_, ?_⟩
  · intro i hi
    have hrw : (tTaskInit task entry param prio stackSize s).2.1
        = tTaskInitStack entry param (stackSize / 4) := rfl
    rw [hrw]
    exact tTaskInitStack_getD_low entry param (stackSize / 4) i hN hi
  · have htab : (tTaskInit task entry param prio stackSize s).2.2.taskTable
        = s.taskTable.set prio
            (task.id :: s.taskTable.getD prio []) := rfl
    rw [htab, getD_set_self _ _ _ _ hp]
    rfl
  · have hbm : (tTaskInit task entry param prio stackSize s).2.2.prioBitMap
        = tBitMapSet s.prioBitMap prio := rfl
    rw [hbm]
    exact testBit_tBitMapSet_self s.prioBitMap prio

/-- A fresh scheduler state with all 32 ready lists empty. -/
def c8Sched : Sched :=
  { taskTable := List.replicate 32 [], prioBitMap := 0, schedLockCounter := 0,
    curTask := 0, nextTask := 0 }

/-- The raw task record of the C8 witness. -/
def c8Task : tTask := { id := 3 }

set_option maxHeartbeats 1000000 in
/-- Witness for C8: task 3 initialized at priority 1 with a 68-byte
(17-word) stack. -/
theorem c8_tTaskInit_witness :
    (∀ i < (1 : Nat), (tTaskInit c8Task 111 222 1 68 c8Sched).2.1.getD i 1 = 0)
    ∧ (tTaskInit c8Task 111 222 1 68 c8Sched).1.stateDelayed = false
    ∧ (tTaskInit c8Task 111 222 1 68 c8Sched).1.stateSuspend = false
    ∧ (tTaskInit c8Task 111 222 1 68 c8Sched).1.stateWaitEvent = false
    ∧ (tTaskInit c8Task 111 222 1 68 c8Sched).1.slice = TINYOS_SLICE_MAX
    ∧ (tTaskInit c8Task 111 222 1 68 c8Sched).1.suspendCount = 0
    ∧ (tTaskInit c8Task 111 222 1 68 c8Sched).1.delayTicks = 0
    ∧ (tTaskInit c8Task 111 222 1 68 c8Sched).1.clean = none
    ∧ (tTaskInit c8Task 111 222 1 68 c8Sched).1.cleanParam = none
    ∧ (tTaskInit c8Task 111 222 1 68 c8Sched).1.requestDeleteFlag = 0
    ∧ ((tTaskInit c8Task 111 222 1 68 c8Sched).2.2.taskTable.getD 1 []).head? = some 3
    ∧ (tTaskInit c8Task 111 222 1 68 c8Sched).2.2.prioBitMap.testBit 1 = true :=
  c8_tTaskInit_characterization c8Task 111 222 1 68 c8Sched (by decide) (by decide)

/-- The stack-free scan returns `some (acc + j)` when the first `j` words
from position `i` are zero, the word at `j` is not, and the bound admits
the guard at every step. -/
theorem tTaskStackCountGo_spec :
    ∀ (ws : List Nat) (bound i acc j : Nat),
      (∀ l, l < j → ws.getD l 1 = 0) → j < ws.length → ws.getD j 1 ≠ 0 →
      i + j ≤ bound →
      tTaskStackCountGo ws bound i acc = some (acc + j) := by
  intro ws
  induction ws with
  | nil =>
      intro bound i acc j hzero hj hnz hbound
      simp at hj
  | cons w rest ih =>
      intro bound i acc j hzero hj hnz hbound
      cases j with
      | zero =>
          have hw : w ≠ 0 := by
            intro hc
            exact hnz (by simp [hc])
          unfold tTaskStackCountGo
          rw [if_neg (by intro hc; exact hw hc.1)]
          simp
      | succ j' =>
          have hw : w = 0 := by
            have := hzero 0 (Nat.succ_pos j')
            simpa using this
          unfold tTaskStackCountGo
          rw [if_pos ⟨hw, by omega⟩]
          have hrec := ih bound (i + 1) (acc + 1) j'
            (fun l hl => by simpa using hzero (l + 1) (by omega))
            (by simpa using hj)
            (by simpa using hnz)
            (by omega)
          rw [hrec]
          have : acc + 1 + j' = acc + (j' + 1) := by omega
          rw [this]

/-- C10 (amended): for a stack produced by `tTaskInit` (at least 16 words)
the measurement loop stops at the first frame word — the saved R4 value 0x4
at index N−16 — so every read stays inside the stack region and the scan
returns `some (N − 16)`. The claim's "in particular when the region is
entirely zero-filled" clause is the part that fails (see the
counterexample): a `tTaskInit` stack is never entirely zero. -/
theorem c10_scan_in_range (entry param N : Nat) (hN : 16 ≤ N) :
    tTaskStackFreeCount (tTaskInitStack entry param N) = some (N - 16) := by
  unfold tTaskStackFreeCount
  have h := tTaskStackCountGo_spec (tTaskInitStack entry param N)
    (tTaskInitStack entry param N).length 0 0 (N - 16)
    (fun l hl => tTaskInitStack_getD_low entry param N l hN hl)
    (by rw [tTaskInitStack_length]; omega)
    (by rw [tTaskInitStack_getD_frame entry param N hN]; omega)
    (by rw [tTaskInitStack_length]; omega)
  simpa using h

/-- C10 counterexample: on an entirely zero-filled 16-word region the loop
runs past the last word — the C bound `stackEnd <= stackBase + stackSize/4`
is checked only after the post-increment read — and the out-of-range
(`none`) branch is reached. -/
theorem c10_counterexample :
    tTaskStackFreeCount (List.replicate 16 0) = none := by decide

/-- Witness for C10 at a 17-word initialized stack: one free word. -/
theorem c10_scan_in_range_witness :
    tTaskStackFreeCount (tTaskInitStack 111 222 17) = some 1 := by
  have h := c10_scan_in_range 111 222 17 (by decide)
  simpa using h

/-- The task update of `tEventRemoveTask` does not depend on the queues. -/
theorem tEventRemoveTask_fst_indep (t : tTask) (msg : Option Nat) (r : TErr)
    (q q' : EvQueues) :
    (tEventRemoveTask t msg r q).1 = (tEventRemoveTask t msg r q').1 := by
  unfold tEventRemoveTask
  cases t.waitEvent <;> rfl

/-- One expired task at the head of the delayed list: the walk continues on
the tail with the task's entry removed from its event queue (when waiting)
and the woken task made ready. -/
theorem tickDelayedWalk_cons_expired (t : tTask) (rest : List tTask) (q : EvQueues)
    (s : Sched) (h : dec32 t.delayTicks = 0) :
    tickDelayedWalk (t :: rest) q s
      = tickDelayedWalk rest
          (match t.waitEvent with
           | some e => evqRemove q e t.id
           | none => q)
          (tTaskSchedRdy (tickWakeTransform t) s) := by
  cases hw : t.waitEvent with
  | none =>
      simp only [tickDelayedWalk, tickWakeTransform, tEventRemoveTask]
      simp [hw, h]
  | some e =>
      simp only [tickDelayedWalk, tickWakeTransform, tEventRemoveTask]
      simp [hw, h]

/-- One still-delayed task at the head: it stays, decremented. -/
theorem tickDelayedWalk_cons_alive (t : tTask) (rest : List tTask) (q : EvQueues)
    (s : Sched) (h : ¬ dec32 t.delayTicks = 0) :
    tickDelayedWalk (t :: rest) q s
      = ({ t with delayTicks := dec32 t.delayTicks } :: (tickDelayedWalk rest q s).1,
         (tickDelayedWalk rest q s).2.1, (tickDelayedWalk rest q s).2.2) := by
  simp only [tickDelayedWalk]
  simp [h]

/-- C2: the delayed-list walk of the tick handler decrements every delayed
task's count (modulo 2^32); the tasks whose count does not reach 0 remain on
the delay list, in order, with only the decrement applied; each task whose
count reaches 0 is woken: its scheduler effect is exactly a `tTaskSchedRdy`
of the task with DELAYED cleared and — when it was waiting on an event — its
wait binding cleared with result TIMEOUT (`tickWakeTransform`), applied in
list order, and its event-queue effect is exactly the removal of the task
from the queue of the event it was waiting on, also in list order. -/
theorem c2_tick_delayed_walk_characterization (dl : List tTask) (q : EvQueues)
    (s : Sched) :
    (tickDelayedWalk dl q s).1
      = ((dl.map fun t => { t with delayTicks := dec32 t.delayTicks }).filter
          fun t => t.delayTicks != 0)
    ∧ (tickDelayedWalk dl q s).2.2
      = ((dl.filter fun t => dec32 t.delayTicks == 0).foldl
          (fun s1 t => tTaskSchedRdy (tickWakeTransform t) s1) s)
    ∧ (tickDelayedWalk dl q s).2.1
      = ((dl.filter fun t => dec32 t.delayTicks == 0).foldl
          (fun q1 t =>
            match t.waitEvent with
            | some e => evqRemove q1 e t.id
            | none => q1) q) := by
  induction dl generalizing q s with
  | nil => exact ⟨rfl, rfl, rfl⟩
  | cons t rest ih =>
      by_cases h : dec32 t.delayTicks = 0
      · rw [tickDelayedWalk_cons_expired t rest q s h]
        obtain ⟨ih1, ih2, ih3⟩ := ih
          (match t.waitEvent with
           | some e => evqRemove q e t.id
           | none => q)
          (tTaskSchedRdy (tickWakeTransform t) s)
        refine ⟨?_, ?_, ?_⟩
        · rw [ih1]
          simp [List.filter_cons, h]
        · rw [ih2]
          simp [List.filter_cons, h]
        · rw [ih3]
          simp [List.filter_cons, h]
      · rw [tickDelayedWalk_cons_alive t rest q s h]
        obtain ⟨ih1, ih2, ih3⟩ := ih q s
        refine ⟨?_, ?_, ?_⟩
        · show { t with delayTicks := dec32 t.delayTicks } :: (tickDelayedWalk rest q s).1
              = _
          rw [ih1]
          simp [List.filter_cons, h]
        · show (tickDelayedWalk rest q s).2.2 = _
          rw [ih2]
          simp [List.filter_cons, h]
        · show (tickDelayedWalk rest q s).2.1 = _
          rw [ih3]
          simp [List.filter_cons, h]
